import Mathlib

/-!
Verification of the sheet-imposition algorithm of `print_all_pdfs.py`.

The Python source is embedded shallowly: page counts are `Nat`, page
selections are `List Nat` (1-based page numbers), rendered output is a
`List Sheet`, and the win32 print dispatch is a state-and-exception
computation over the default-printer name.
-/

namespace PrintAllPdfs

/-- Embedding of `num_physical_sheets(total_pages)`:
`math.ceil(total_pages / 2)`, which for a natural number equals
`(total_pages + 1) / 2` (proved against the rational ceiling below). -/
def num_physical_sheets (total_pages : Nat) : Nat :=
  (total_pages + 1) / 2

/-- Embedding of Python `range(start, stop, 2)`: the list
`[start, start + 2, ...]` of all such numbers below `stop`. -/
def rangeStep2 (start stop : Nat) : List Nat :=
  (List.range ((stop - start + 1) / 2)).map (fun i => start + 2 * i)

/-- Body of the sheet loops in `get_front_pages` / `get_back_pages`:
for a 0-based `sheet_idx`, `p1 = sheet_idx * 2 + 1` is appended, and
`p2 = p1 + 1` is appended when `p2 ≤ total` (the two locals are inlined
here). -/
def sheetPages (total sheet_idx : Nat) : List Nat :=
  (sheet_idx * 2 + 1) :: (if sheet_idx * 2 + 1 + 1 ≤ total then [sheet_idx * 2 + 1 + 1] else [])

/-- Embedding of `get_front_pages(total_pages)`: the loop
`for sheet_idx in range(0, num_sheets, 2)` appending the pages of each
front sheet. -/
def get_front_pages (total_pages : Nat) : List Nat :=
  (rangeStep2 0 (num_physical_sheets total_pages)).flatMap (sheetPages total_pages)

/-- Embedding of `get_back_pages(total_pages)`: the loop
`for sheet_idx in range(1, num_sheets, 2)` appending the pages of each
back sheet. -/
def get_back_pages (total_pages : Nat) : List Nat :=
  (rangeStep2 1 (num_physical_sheets total_pages)).flatMap (sheetPages total_pages)

/-- Embedding of `needs_back_blank(total_pages)`:
`num_physical_sheets(total_pages) % 2 == 1`. -/
def needs_back_blank (total_pages : Nat) : Bool :=
  num_physical_sheets total_pages % 2 == 1

/-- One output page of the rendered print PDF: either a 2-up sheet holding
a left page and an optional right page (both 1-based source page numbers),
or a fully blank sheet (`PageObject.create_blank_page`). -/
inductive Sheet : Type
  | twoUp (left : Nat) (right : Option Nat)
  | blank
deriving DecidableEq

/-- The pairing loop of `build_print_pdf`:
`for i in range(0, len(pages), 2)` emits one 2-up sheet from `pages[i]`
and, when present, `pages[i+1]`. -/
def pairSheets : List Nat → List Sheet
  | [] => []
  | [a] => [Sheet.twoUp a none]
  | a :: b :: rest => Sheet.twoUp a (some b) :: pairSheets rest

/-- Embedding of `build_print_pdf(reader, pages, append_blank)`: the
sequence of output pages written to the temp PDF (the 2-up sheets in
selection order, then one blank sheet when `append_blank`). -/
def build_print_pdf (pages : List Nat) (append_blank : Bool) : List Sheet :=
  pairSheets pages ++ (if append_blank then [Sheet.blank] else [])

/-- The `side` argument of `print_pdf` (`"front"` or `"back"`). -/
inductive Side : Type
  | front
  | back
deriving DecidableEq

/-- The selection step of `print_pdf`: the page list and `append_blank`
flag chosen by the `if side == "front"` branch. -/
def print_pdf_selection (total : Nat) (side : Side) : List Nat × Bool :=
  match side with
  | Side.front => (get_front_pages total, false)
  | Side.back => (get_back_pages total, needs_back_blank total)

/-- Embedding of `print_pdf`: the sequence of output sheets submitted to
the printer for one document and one side. When the selection is empty,
the back side with at least one physical sheet still submits a single
blank sheet; otherwise nothing is printed. When the selection is
nonempty, the result of `build_print_pdf` is submitted. -/
def print_pdf (total : Nat) (side : Side) : List Sheet :=
  let sel := print_pdf_selection total side
  if sel.1.isEmpty then
    if side = Side.back ∧ 1 ≤ num_physical_sheets total then [Sheet.blank] else []
  else
    build_print_pdf sel.1 sel.2

/-- Ceiling of `k / 2` on naturals, the shape `math.ceil(len(pages) / 2)`
takes in the source. -/
def ceil_half (k : Nat) : Nat := (k + 1) / 2

example : get_front_pages 5 = [1, 2, 5] := by decide
example : get_back_pages 5 = [3, 4] := by decide
example : get_front_pages 12 = [1, 2, 5, 6, 9, 10] := by decide
example : get_back_pages 12 = [3, 4, 7, 8, 11, 12] := by decide
example : get_back_pages 3 = [3] := by decide
example : needs_back_blank 5 = true := by decide
example : print_pdf 1 Side.back = [Sheet.blank] := by decide
example : print_pdf 0 Side.back = [] := by decide
example : print_pdf 5 Side.back = [Sheet.twoUp 3 (some 4), Sheet.blank] := by decide

/-! ### Structural recurrences: growing the document by four pages adds one
front sheet and one back sheet at the head and shifts everything else. -/

theorem num_sheets_add_four (n : Nat) :
    num_physical_sheets (n + 4) = num_physical_sheets n + 2 := by
  unfold num_physical_sheets
  omega

theorem rangeStep2_zero_add_two (m : Nat) :
    rangeStep2 0 (m + 2) = 0 :: (rangeStep2 0 m).map (· + 2) := by
  unfold rangeStep2
  rw [show (m + 2 - 0 + 1) / 2 = (m - 0 + 1) / 2 + 1 from by omega,
    List.range_succ_eq_map]
  simp only [List.map_cons, List.map_map, Nat.mul_zero, Nat.add_zero]
  congr 1

theorem rangeStep2_one_add_two (m : Nat) :
    rangeStep2 1 (m + 2) = 1 :: (rangeStep2 1 m).map (· + 2) := by
  unfold rangeStep2
  rw [show (m + 2 - 1 + 1) / 2 = (m - 1 + 1) / 2 + 1 from by omega,
    List.range_succ_eq_map]
  simp only [List.map_cons, List.map_map, Nat.mul_zero, Nat.add_zero]
  congr 1

theorem sheetPages_shift (n s : Nat) :
    sheetPages (n + 4) (s + 2) = (sheetPages n s).map (· + 4) := by
  unfold sheetPages
  by_cases h : s * 2 + 1 + 1 ≤ n
  · rw [if_pos h, if_pos (show (s + 2) * 2 + 1 + 1 ≤ n + 4 from by omega)]
    simp only [List.map_cons, List.map_nil, List.cons.injEq, and_true]
    omega
  · rw [if_neg h, if_neg (show ¬((s + 2) * 2 + 1 + 1 ≤ n + 4) from by omega)]
    simp only [List.map_cons, List.map_nil, List.cons.injEq, and_true]
    omega

theorem sheetPages_zero (n : Nat) : sheetPages (n + 4) 0 = [1, 2] := by
  unfold sheetPages
  rw [if_pos (show 0 * 2 + 1 + 1 ≤ n + 4 from by omega)]

theorem sheetPages_one (n : Nat) : sheetPages (n + 4) 1 = [3, 4] := by
  unfold sheetPages
  rw [if_pos (show 1 * 2 + 1 + 1 ≤ n + 4 from by omega)]

theorem get_front_pages_add_four (n : Nat) :
    get_front_pages (n + 4) = 1 :: 2 :: (get_front_pages n).map (· + 4) := by
  unfold get_front_pages
  rw [num_sheets_add_four, rangeStep2_zero_add_two, List.flatMap_cons,
    List.flatMap_map, sheetPages_zero,
    List.flatMap_congr (fun s _ => sheetPages_shift n s),
    ← List.map_flatMap]
  rfl

theorem get_back_pages_add_four (n : Nat) :
    get_back_pages (n + 4) = 3 :: 4 :: (get_back_pages n).map (· + 4) := by
  unfold get_back_pages
  rw [num_sheets_add_four, rangeStep2_one_add_two, List.flatMap_cons,
    List.flatMap_map, sheetPages_one,
    List.flatMap_congr (fun s _ => sheetPages_shift n s),
    ← List.map_flatMap]
  rfl

/-- Induction principle matching the step-four recurrences. -/
theorem nat_rec_four {P : Nat → Prop} (h0 : P 0) (h1 : P 1) (h2 : P 2) (h3 : P 3)
    (hstep : ∀ n, P n → P (n + 4)) : ∀ n, P n
  | 0 => h0
  | 1 => h1
  | 2 => h2
  | 3 => h3
  | (n + 4) => hstep n (nat_rec_four h0 h1 h2 h3 hstep n)

/-! ### Closed characterization: page `p` (1-based) lies on 0-based sheet
`(p - 1) / 2`, and the front pass takes exactly the even sheets. -/

/-- Page `p` lies on a front-pass sheet: its 0-based sheet `(p - 1) / 2`
is even, i.e. `(p - 1) % 4 < 2`. -/
def onFrontSheet (p : Nat) : Bool := decide ((p - 1) % 4 < 2)

/-- Page `p` lies on a back-pass sheet. -/
def onBackSheet (p : Nat) : Bool := !onFrontSheet p

theorem range_one_split (n : Nat) :
    List.range' 1 (n + 4) = [1, 2, 3, 4] ++ (List.range' 1 n).map (· + 4) := by
  rw [show n + 4 = n + 4 from rfl, ← List.range'_append_1 1 4 n]
  congr 1
  rw [List.range'_eq_map_range 5 n, List.range'_eq_map_range 1 n, List.map_map]
  congr 1
  funext i
  simp only [Function.comp_apply]
  omega

theorem filter_shift_four (f : Nat → Bool) (n : Nat)
    (hf : ∀ p, 1 ≤ p → f (p + 4) = f p) :
    ((List.range' 1 n).map (· + 4)).filter f
      = ((List.range' 1 n).filter f).map (· + 4) := by
  rw [List.filter_map]
  congr 1
  apply List.filter_congr
  intro x hx
  have hx1 : 1 ≤ x := (List.mem_range'_1.mp hx).1
  simp only [Function.comp_apply]
  exact hf x hx1

theorem onFrontSheet_shift (p : Nat) (hp : 1 ≤ p) :
    onFrontSheet (p + 4) = onFrontSheet p := by
  unfold onFrontSheet
  have he : (p + 4 - 1) % 4 = (p - 1) % 4 := by omega
  rw [he]

theorem onBackSheet_shift (p : Nat) (hp : 1 ≤ p) :
    onBackSheet (p + 4) = onBackSheet p := by
  unfold onBackSheet
  rw [onFrontSheet_shift p hp]

theorem front_filter :
    ∀ n, get_front_pages n = (List.range' 1 n).filter onFrontSheet := by
  refine nat_rec_four (by decide) (by decide) (by decide) (by decide) ?_
  intro n ih
  rw [get_front_pages_add_four, ih, range_one_split, List.filter_append,
    filter_shift_four onFrontSheet n onFrontSheet_shift]
  rfl

theorem back_filter :
    ∀ n, get_back_pages n = (List.range' 1 n).filter onBackSheet := by
  refine nat_rec_four (by decide) (by decide) (by decide) (by decide) ?_
  intro n ih
  rw [get_back_pages_add_four, ih, range_one_split, List.filter_append,
    filter_shift_four onBackSheet n onBackSheet_shift]
  rfl

/-- The two passes together are a permutation of all pages `1..n`. -/
theorem front_back_perm (n : Nat) :
    (get_front_pages n ++ get_back_pages n).Perm (List.range' 1 n) := by
  rw [front_filter n, back_filter n]
  have h := List.filter_append_perm onFrontSheet (List.range' 1 n)
  have he : (List.range' 1 n).filter (fun x => !onFrontSheet x)
      = (List.range' 1 n).filter onBackSheet := rfl
  rw [he] at h
  exact h

/-! ### Length closed forms -/

theorem length_front :
    ∀ n, (get_front_pages n).length = 2 * (n / 4) + min (n % 4) 2 := by
  refine nat_rec_four (by decide) (by decide) (by decide) (by decide) ?_
  intro n ih
  rw [get_front_pages_add_four]
  simp only [List.length_cons, List.length_map]
  omega

theorem length_back :
    ∀ n, (get_back_pages n).length = 2 * (n / 4) + (n % 4 - 2) := by
  refine nat_rec_four (by decide) (by decide) (by decide) (by decide) ?_
  intro n ih
  rw [get_back_pages_add_four]
  simp only [List.length_cons, List.length_map]
  omega

theorem back_eq_nil_iff (n : Nat) : get_back_pages n = [] ↔ n ≤ 2 := by
  rw [← List.length_eq_zero, length_back n]
  omega

/-- The natural-number form `(n + 1) / 2` agrees with the mathematical
ceiling `⌈n / 2⌉` computed by `math.ceil`. -/
theorem num_physical_sheets_eq_ceil (n : Nat) :
    (num_physical_sheets n : ℤ) = ⌈(n : ℚ) / 2⌉ := by
  have h1 : n ≤ 2 * num_physical_sheets n := by unfold num_physical_sheets; omega
  have h2 : 2 * num_physical_sheets n ≤ n + 1 := by unfold num_physical_sheets; omega
  rw [eq_comm, Int.ceil_eq_iff]
  constructor
  · rw [sub_lt_iff_lt_add, show (n : ℚ) / 2 + 1 = ((n : ℚ) + 2) / 2 from by ring,
      lt_div_iff₀ (show (0 : ℚ) < 2 from by norm_num)]
    push_cast
    have : num_physical_sheets n * 2 < n + 2 := by omega
    exact_mod_cast this
  · rw [div_le_iff₀ (show (0 : ℚ) < 2 from by norm_num)]
    push_cast
    have : n ≤ num_physical_sheets n * 2 := by omega
    exact_mod_cast this

/-! ### Spec-side restatement of the pass selections (for the refinement
claim): iterate all sheet indices below the sheet count and keep the even
(resp. odd) ones. -/

/-- Spec restatement of the front selection: the concatenation, over
0-based sheet indices `s = 0, 2, 4, ...` strictly below the sheet count,
of `[2s + 1]` followed by `[2s + 2]` when `2s + 2 ≤ n`. -/
def frontPagesSpec (n : Nat) : List Nat :=
  ((List.range (num_physical_sheets n)).filter (fun s => s % 2 == 0)).flatMap
    (fun s => (2 * s + 1) :: (if 2 * s + 2 ≤ n then [2 * s + 2] else []))

/-- Spec restatement of the back selection: the same rule over sheet
indices `s = 1, 3, 5, ...`. -/
def backPagesSpec (n : Nat) : List Nat :=
  ((List.range (num_physical_sheets n)).filter (fun s => s % 2 == 1)).flatMap
    (fun s => (2 * s + 1) :: (if 2 * s + 2 ≤ n then [2 * s + 2] else []))

theorem rangeStep2_zero_eq_filter :
    ∀ m, rangeStep2 0 m = (List.range m).filter (fun s => s % 2 == 0) := by
  intro m
  induction m with
  | zero => rfl
  | succ k ih =>
    rw [List.range_succ, List.filter_append, ← ih]
    unfold rangeStep2
    by_cases h : k % 2 = 0
    · rw [show (k + 1 - 0 + 1) / 2 = (k - 0 + 1) / 2 + 1 from by omega,
        List.range_succ, List.map_append]
      congr 1
      simp only [List.map_cons, List.map_nil, List.filter,
        show (k % 2 == 0) = true from by simp [h]]
      congr 1
      omega
    · rw [show (k + 1 - 0 + 1) / 2 = (k - 0 + 1) / 2 from by omega]
      simp only [List.filter, show (k % 2 == 0) = false from by simp [h],
        List.append_nil]

theorem rangeStep2_one_eq_filter :
    ∀ m, rangeStep2 1 m = (List.range m).filter (fun s => s % 2 == 1) := by
  intro m
  induction m with
  | zero => rfl
  | succ k ih =>
    rw [List.range_succ, List.filter_append, ← ih]
    unfold rangeStep2
    by_cases h : k % 2 = 1
    · rw [show (k + 1 - 1 + 1) / 2 = (k - 1 + 1) / 2 + 1 from by omega,
        List.range_succ, List.map_append]
      congr 1
      simp only [List.map_cons, List.map_nil, List.filter,
        show (k % 2 == 1) = true from by simp [h]]
      congr 1
      omega
    · rw [show (k + 1 - 1 + 1) / 2 = (k - 1 + 1) / 2 from by omega]
      simp only [List.filter, show (k % 2 == 1) = false from by simp [h],
        List.append_nil]

/-! ### The pairing loop of the renderer -/

/-- The real source pages carried by one output sheet. -/
def sheetRealPages : Sheet → List Nat
  | Sheet.twoUp a none => [a]
  | Sheet.twoUp a (some b) => [a, b]
  | Sheet.blank => []

theorem pairSheets_length : ∀ l : List Nat, (pairSheets l).length = ceil_half l.length
  | [] => rfl
  | [_] => by simp [pairSheets, ceil_half]
  | _ :: _ :: rest => by
    simp only [pairSheets, List.length_cons, pairSheets_length rest]
    unfold ceil_half
    omega

theorem pairSheets_flat : ∀ l : List Nat, (pairSheets l).flatMap sheetRealPages = l
  | [] => rfl
  | [_] => by simp [pairSheets, sheetRealPages]
  | a :: b :: rest => by
    simp only [pairSheets, List.flatMap_cons, pairSheets_flat rest]
    rfl

theorem pairSheets_no_blank : ∀ l : List Nat, Sheet.blank ∉ pairSheets l
  | [] => by simp [pairSheets]
  | [a] => by simp [pairSheets]
  | a :: b :: rest => by
    simp only [pairSheets, List.mem_cons, not_or]
    exact ⟨by simp, pairSheets_no_blank rest⟩

/-! ### The win32 fallback dispatch: state-and-exception embedding.
The mutable state is the system default-printer name; a computation
returns a normal result or an escaped exception, together with the state
at exit. -/

/-- A computation over the default-printer state that may raise. -/
def W32 (ε α : Type) : Type := String → Except ε α × String

/-- Sequencing: on an exception the continuation is skipped. -/
def w32bind {ε α β : Type} (m : W32 ε α) (f : α → W32 ε β) : W32 ε β := fun s =>
  match m s with
  | (Except.ok a, s1) => f a s1
  | (Except.error e, s1) => (Except.error e, s1)

/-- Python `try body finally cleanup`: `cleanup` always runs, after the
body, whether the body returned or raised; an exception from the body
propagates afterwards unless `cleanup` itself raises. -/
def tryFinallyW {ε α : Type} (body : W32 ε α) (cleanup : W32 ε Unit) : W32 ε α := fun s =>
  let r1 := body s
  let r2 := cleanup r1.2
  match r2.1 with
  | Except.ok _ => (r1.1, r2.2)
  | Except.error e => (Except.error e, r2.2)

/-- Embedding of `win32print.GetDefaultPrinter()`. -/
def getDefaultPrinterW {ε : Type} : W32 ε String := fun s => (Except.ok s, s)

/-- Embedding of `win32print.SetDefaultPrinter(p)`. -/
def setDefaultPrinterW {ε : Type} (p : String) : W32 ε Unit := fun _ => (Except.ok (), p)

/-- Embedding of `print_via_win32(pdf_path, printer)` after the pywin32
module loads: read the current default printer into `original`, then
under `try/finally` set the default printer to `printer` and run the
`win32api.ShellExecute` print submission (an arbitrary, possibly raising
computation, abstracted as a parameter), and in the `finally` clause set
the default printer back to `original`. -/
def print_via_win32 {ε : Type} (shellExecuteRun : String → W32 ε Unit)
    (printer : String) : W32 ε Unit :=
  w32bind getDefaultPrinterW fun original =>
    tryFinallyW
      (w32bind (setDefaultPrinterW printer) fun _ => shellExecuteRun printer)
      (setDefaultPrinterW original)

/-! ### The claims -/

/-- Claim C1: for every page count `n`, the front and back selections
partition the pages exactly: the lengths add up to `n`, their union as a
set is `{1..n}`, and no page appears twice within or across the two
selections. -/
theorem front_back_partition (n : Nat) :
    (get_front_pages n).length + (get_back_pages n).length = n ∧
    (∀ p, p ∈ get_front_pages n ++ get_back_pages n ↔ 1 ≤ p ∧ p ≤ n) ∧
    (get_front_pages n ++ get_back_pages n).Nodup := by
  have hperm := front_back_perm n
  refine ⟨?_, ?_, ?_⟩
  · have h := hperm.length_eq
    simpa [List.length_append, List.length_range'] using h
  · intro p
    rw [hperm.mem_iff, List.mem_range'_1]
    omega
  · exact hperm.nodup_iff.mpr (List.nodup_range' 1 n)

/-- Claim C2: `needs_back_blank n` is true exactly when the physical sheet
count is odd, and the front pass of `print_pdf` always selects
`append_blank = False`. -/
theorem blank_flag_rule (n : Nat) :
    (needs_back_blank n = true ↔ num_physical_sheets n % 2 = 1) ∧
    (print_pdf_selection n Side.front).2 = false := by
  constructor
  · simp [needs_back_blank]
  · rfl

/-- Claim C8: the imposition functions are total pure arithmetic, and
every page in either selection satisfies `1 ≤ p ≤ n`, so the 0-based
lookup index `p - 1` used by `build_print_pdf` is in bounds for an
`n`-page document. -/
theorem selection_pages_in_bounds (n p : Nat)
    (h : p ∈ get_front_pages n ∨ p ∈ get_back_pages n) :
    1 ≤ p ∧ p ≤ n ∧ p - 1 < n := by
  have hperm := front_back_perm n
  have hp : p ∈ get_front_pages n ++ get_back_pages n := by
    rcases h with h | h
    · exact List.mem_append_left _ h
    · exact List.mem_append_right _ h
  rw [hperm.mem_iff, List.mem_range'_1] at hp
  omega

theorem selection_pages_in_bounds_witness : 1 ≤ 5 ∧ 5 ≤ 5 ∧ 5 - 1 < 5 :=
  selection_pages_in_bounds 5 5 (Or.inl (by decide))

/-- Claim C9: the back selection is empty exactly when `n ≤ 2`, and on
that domain the branch condition `print_pdf` uses for the blank-only
sheet (`num_physical_sheets n ≥ 1`) coincides with `needs_back_blank n`. -/
theorem back_empty_blank_equiv (n : Nat) :
    (get_back_pages n = [] ↔ n ≤ 2) ∧
    (get_back_pages n = [] →
      ((1 ≤ num_physical_sheets n) ↔ needs_back_blank n = true)) := by
  refine ⟨back_eq_nil_iff n, ?_⟩
  intro h
  have hn : n ≤ 2 := (back_eq_nil_iff n).mp h
  interval_cases n <;> decide

theorem back_empty_blank_equiv_witness :
    (1 ≤ num_physical_sheets 1) ↔ needs_back_blank 1 = true :=
  (back_empty_blank_equiv 1).2 (by decide)

/-- Claim C3: `num_physical_sheets n` is `⌈n / 2⌉`; the per-pass output
sheet counts add up to it whenever both selections are nonempty; and for
an odd sheet count the front pass has exactly one more sheet than the
back pass. -/
theorem pass_sheet_counts (n : Nat) :
    (num_physical_sheets n : ℤ) = ⌈(n : ℚ) / 2⌉ ∧
    (get_front_pages n ≠ [] → get_back_pages n ≠ [] →
      ceil_half (get_front_pages n).length + ceil_half (get_back_pages n).length
        = num_physical_sheets n) ∧
    (num_physical_sheets n % 2 = 1 →
      ceil_half (get_front_pages n).length
        = ceil_half (get_back_pages n).length + 1) := by
  have h1 := length_front n
  have h2 := length_back n
  refine ⟨num_physical_sheets_eq_ceil n, ?_, ?_⟩
  · intro hf hb
    unfold ceil_half num_physical_sheets
    omega
  · intro hodd
    unfold ceil_half at *
    unfold num_physical_sheets at *
    omega

theorem pass_sheet_counts_witness :
    (ceil_half (get_front_pages 5).length + ceil_half (get_back_pages 5).length
      = num_physical_sheets 5) ∧
    (ceil_half (get_front_pages 5).length
      = ceil_half (get_back_pages 5).length + 1) :=
  ⟨(pass_sheet_counts 5).2.1 (by decide) (by decide),
    (pass_sheet_counts 5).2.2 (by decide)⟩

/-- Claim C4: the selections are exactly the concatenation over even
(resp. odd) 0-based sheet indices below the sheet count of `[2s + 1]`
followed by `[2s + 2]` when it fits, and consequently each selection is
strictly increasing. -/
theorem pass_sheet_decomposition (n : Nat) :
    get_front_pages n = frontPagesSpec n ∧
    get_back_pages n = backPagesSpec n ∧
    (get_front_pages n).Pairwise (· < ·) ∧
    (get_back_pages n).Pairwise (· < ·) := by
  refine ⟨?_, ?_, ?_, ?_⟩
  · unfold get_front_pages frontPagesSpec
    rw [rangeStep2_zero_eq_filter]
    apply List.flatMap_congr
    intro s _
    unfold sheetPages
    rw [show s * 2 + 1 = 2 * s + 1 from by omega]
  · unfold get_back_pages backPagesSpec
    rw [rangeStep2_one_eq_filter]
    apply List.flatMap_congr
    intro s _
    unfold sheetPages
    rw [show s * 2 + 1 = 2 * s + 1 from by omega]
  · rw [front_filter n]
    exact List.Pairwise.sublist (List.filter_sublist _) (List.pairwise_lt_range' 1 n)
  · rw [back_filter n]
    exact List.Pairwise.sublist (List.filter_sublist _) (List.pairwise_lt_range' 1 n)

/-- Claim C5: for a nonempty selection, `build_print_pdf` writes exactly
`ceil(len(selection) / 2)` real sheets plus one blank when requested, the
selected pages appear on the sheets exactly once each and in selection
order, and the blank sheet comes after all real sheets. -/
theorem build_print_pdf_contract (pages : List Nat) (append_blank : Bool)
    (_hne : pages ≠ []) :
    (build_print_pdf pages append_blank).length
        = ceil_half pages.length + (if append_blank then 1 else 0) ∧
    (build_print_pdf pages append_blank).flatMap sheetRealPages = pages ∧
    (build_print_pdf pages append_blank).count Sheet.blank
        = (if append_blank then 1 else 0) ∧
    (append_blank = true →
      (build_print_pdf pages append_blank).getLast? = some Sheet.blank) := by
  unfold build_print_pdf
  refine ⟨?_, ?_, ?_, ?_⟩
  · rw [List.length_append, pairSheets_length pages]
    cases append_blank <;> simp
  · rw [List.flatMap_append, pairSheets_flat pages]
    cases append_blank <;> simp [sheetRealPages]
  · rw [List.count_append,
      List.count_eq_zero.mpr (pairSheets_no_blank pages)]
    cases append_blank <;> simp
  · intro hb
    rw [hb, if_pos rfl]
    exact List.getLast?_concat _

theorem build_print_pdf_contract_witness :
    (build_print_pdf [1, 2, 5] true).length
        = ceil_half ([1, 2, 5] : List Nat).length + (if true then 1 else 0) ∧
    (build_print_pdf [1, 2, 5] true).flatMap sheetRealPages = [1, 2, 5] ∧
    (build_print_pdf [1, 2, 5] true).count Sheet.blank = (if true then 1 else 0) ∧
    (true = true → (build_print_pdf [1, 2, 5] true).getLast? = some Sheet.blank) :=
  build_print_pdf_contract [1, 2, 5] true (by decide)

/-- Claim C6: a single-page document has one (odd) physical sheet, front
selection `[1]`, empty back selection, and owes a trailing blank; the
back pass is not skipped but emits exactly one blank-only sheet, unlike
the zero-page document whose back pass emits nothing. -/
theorem single_page_document :
    num_physical_sheets 1 = 1 ∧ num_physical_sheets 1 % 2 = 1 ∧
    get_front_pages 1 = [1] ∧ get_back_pages 1 = [] ∧
    needs_back_blank 1 = true ∧
    print_pdf 1 Side.back = [Sheet.blank] ∧
    get_back_pages 0 = [] ∧ needs_back_blank 0 = false ∧
    print_pdf 0 Side.back = [] := by
  decide

/-- Claim C7: the concrete scenarios for page counts 5, 12 and 0: sheet
counts, selections, blank flags, and output sheet counts per pass. -/
theorem concrete_scenarios :
    (num_physical_sheets 5 = 3 ∧ get_front_pages 5 = [1, 2, 5] ∧
      get_back_pages 5 = [3, 4] ∧ needs_back_blank 5 = true ∧
      (print_pdf 5 Side.front).length = 2 ∧
      print_pdf 5 Side.back = [Sheet.twoUp 3 (some 4), Sheet.blank] ∧
      (print_pdf 5 Side.back).length = 2) ∧
    (num_physical_sheets 12 = 6 ∧ get_front_pages 12 = [1, 2, 5, 6, 9, 10] ∧
      get_back_pages 12 = [3, 4, 7, 8, 11, 12] ∧ needs_back_blank 12 = false ∧
      (print_pdf 12 Side.front).length = 3 ∧ (print_pdf 12 Side.back).length = 3) ∧
    (get_front_pages 0 = [] ∧ get_back_pages 0 = [] ∧ needs_back_blank 0 = false ∧
      print_pdf 0 Side.front = [] ∧ print_pdf 0 Side.back = []) := by
  decide

/-- Claim C10: the win32 fallback reads the default printer before
switching and restores it on every exit path: whatever the ShellExecute
submission does (return or raise), the default-printer state after
`print_via_win32` equals the state before, and the call's outcome is the
submission's outcome run with the target printer as default. -/
theorem win32_default_printer_restored (ε : Type)
    (shellExecuteRun : String → W32 ε Unit) (printer s : String) :
    (print_via_win32 shellExecuteRun printer s).2 = s ∧
    (print_via_win32 shellExecuteRun printer s).1
      = (shellExecuteRun printer printer).1 := by
  exact ⟨rfl, rfl⟩

end PrintAllPdfs
